import Mathlib

/-!
Verification of the `version-migrate` crate (migration engine + storage layer).

The Rust sources are shallowly embedded:
  * `serde_json::Value` becomes the inductive `Json`; object maps become
    association lists (`assocLookup` / `assocInsert` model `HashMap` /
    `serde_json::Map` get / insert-or-replace);
  * fallible Rust functions returning `Result<_, MigrationError>` become
    `Except MigrationError _`; code that can `panic!` / `todo!` returns an
    `Outcome` / `FsResult` with an explicit `panicked` constructor;
  * the JSON/TOML text codecs are black boxes per the spec (§1, §8): parsing
    is modelled as the codec's outcome (`Option Json`), serialisation as an
    opaque `Json → String` parameter;
  * the filesystem is an association list from paths to file contents, and
    transient `rename` failures are injected through a Boolean oracle over
    attempt indices, mirroring the spec's failure-injection property.
All definitions are translated from the sources in `src/version-migrate/src`
(`migrator.rs`, `storage.rs`, `dir_storage.rs`, `errors.rs`, `lib.rs`);
the only exception is the semantic-version parser/order, which belongs to the
external `semver` crate and is modelled from the spec's description.
-/

namespace VersionMigrate

/-- Association-list lookup, modelling `HashMap::get` / `serde_json::Map::get`. -/
def assocLookup {α : Type} : List (String × α) → String → Option α
  | [], _ => none
  | (k, v) :: rest, key => if k = key then some v else assocLookup rest key

/-- Association-list insert-or-replace, modelling `HashMap::insert` /
`serde_json::Map::insert` (the stored value for an existing key is replaced). -/
def assocInsert {α : Type} : List (String × α) → String → α → List (String × α)
  | [], k, v => [(k, v)]
  | (k0, v0) :: rest, k, v =>
    if k0 = k then (k, v) :: rest else (k0, v0) :: assocInsert rest k v

/-- Association-list removal of a key, modelling `HashMap::remove` /
`serde_json::Map::remove` (maps hold each key once, so filtering is faithful). -/
def assocRemove {α : Type} (l : List (String × α)) (k : String) : List (String × α) :=
  l.filter (fun e => e.1 ≠ k)

/-- Boolean test for a successful `Result` (`Result::is_ok`). -/
def isOkB {ε α : Type} : Except ε α → Bool
  | .ok _ => true
  | .error _ => false

/-! ## Semantic versions

Modelled from the spec: `semver::Version` parsing and ordering belong to the
external `semver` crate; the spec describes a version as a semantic-version
string "major.minor.patch, optional pre-release", totally ordered by semver
comparison rules.  Numeric components are digit strings without leading
zeros; a pre-release is a dot-separated list of nonempty identifiers over
alphanumerics and `-`, numeric identifiers compare numerically and below
alphanumeric ones, and a version with a pre-release precedes the same
version without one. -/

/-- One pre-release identifier: numeric or alphanumeric. -/
inductive PreId where
  | num (n : Nat)
  | str (s : String)
deriving DecidableEq

/-- A parsed semantic version. -/
structure SemVer where
  major : Nat
  minor : Nat
  patch : Nat
  pre : List PreId
deriving DecidableEq

/-- Split a character list at every occurrence of a separator character. -/
def splitOnChar (c : Char) : List Char → List (List Char)
  | [] => [[]]
  | x :: xs =>
    if x = c then [] :: splitOnChar c xs
    else
      match splitOnChar c xs with
      | [] => [[x]]
      | g :: gs => (x :: g) :: gs

/-- Numeric value of a digit string (callers check all characters are digits). -/
def digitsVal (cs : List Char) : Nat :=
  cs.foldl (fun n c => n * 10 + (c.toNat - '0'.toNat)) 0

/-- Digit string without leading zeros (`0` itself allowed). -/
def numericOk (cs : List Char) : Bool :=
  match cs with
  | [] => false
  | d :: rest => d.isDigit && rest.all Char.isDigit && (rest.isEmpty || d ≠ '0')

/-- Parse one `major`/`minor`/`patch` component. -/
def parseNumPart (cs : List Char) : Option Nat :=
  if numericOk cs then some (digitsVal cs) else none

/-- Characters allowed in pre-release identifiers. -/
def isIdentChar (c : Char) : Bool :=
  c.isAlphanum || c = '-'

/-- Parse one pre-release identifier. -/
def parsePreId (cs : List Char) : Option PreId :=
  match cs with
  | [] => none
  | _ =>
    if cs.all Char.isDigit then
      if numericOk cs then some (.num (digitsVal cs)) else none
    else if cs.all isIdentChar then some (.str ⟨cs⟩) else none

/-- Parse a semantic-version string (`x.y.z` with optional `-pre.release`). -/
def semverParse (s : String) : Option SemVer :=
  match splitOnChar '-' s.data with
  | [] => none
  | core :: preParts =>
    match splitOnChar '.' core with
    | [a, b, c] =>
      match parseNumPart a, parseNumPart b, parseNumPart c with
      | some major, some minor, some patch =>
        match preParts with
        | [] => some ⟨major, minor, patch, []⟩
        | _ =>
          let preChars := (preParts.intersperse ['-']).flatten
          match (splitOnChar '.' preChars).mapM parsePreId with
          | some ids => some ⟨major, minor, patch, ids⟩
          | none => none
      | _, _, _ => none
    | _ => none

/-- Strict character-list order (lexicographic by code point). -/
def charsLtB : List Char → List Char → Bool
  | _, [] => false
  | [], _ :: _ => true
  | a :: as, b :: bs => if a = b then charsLtB as bs else decide (a < b)

/-- Strict order on pre-release identifiers: numeric below alphanumeric. -/
def PreId.ltb : PreId → PreId → Bool
  | .num a, .num b => decide (a < b)
  | .num _, .str _ => true
  | .str _, .num _ => false
  | .str a, .str b => charsLtB a.data b.data

/-- Strict order on pre-release identifier lists (shorter prefix is smaller). -/
def preListLtB : List PreId → List PreId → Bool
  | _, [] => false
  | [], _ :: _ => true
  | a :: as, b :: bs => if a = b then preListLtB as bs else a.ltb b

/-- Strict semver precedence. -/
def SemVer.ltb (x y : SemVer) : Bool :=
  if x.major ≠ y.major then decide (x.major < y.major)
  else if x.minor ≠ y.minor then decide (x.minor < y.minor)
  else if x.patch ≠ y.patch then decide (x.patch < y.patch)
  else
    match x.pre, y.pre with
    | [], [] => false
    | _ :: _, [] => true
    | [], _ :: _ => false
    | a :: as, b :: bs => preListLtB (a :: as) (b :: bs)

/-- Non-strict semver precedence (used for the `next_ver <= current_ver` test). -/
def SemVer.leb (x y : SemVer) : Bool :=
  x.ltb y || decide (x = y)

/-! ## Error type

From `errors.rs`. The `IoError` variant is embedded with the two fields
(`path`, `error`) that `storage.rs` and `dir_storage.rs` — the functions under
verification — actually construct. -/

/-- Error type, from `MigrationError` in `errors.rs`. -/
inductive MigrationError where
  | deserializationError (msg : String)
  | serializationError (msg : String)
  | entityNotFound (entity : String)
  | migrationPathNotDefined (entity version : String)
  | migrationStepFailed (vfrom vto error : String)
  | circularMigrationPath (entity path : String)
  | invalidVersionOrder (entity vfrom vto : String)
  | ioError (path error : String)
  | lockError (path error : String)
  | tomlParseError (msg : String)
  | tomlSerializeError (msg : String)
  | homeDirNotFound
  | pathResolution (msg : String)
  | filenameEncoding (id reason : String)
deriving DecidableEq

/-! ## Registration-time validation

From `Migrator::check_circular_path`, `Migrator::check_version_ordering` and
`Migrator::validate_migration_path` in `migrator.rs` (lines 138-192). -/

/-- Duplicate scan of `check_circular_path`: walk the version list with a set
of seen versions; the first repeated version raises `CircularMigrationPath`
whose `path` field is the full joined version sequence. -/
def checkCircularPathAux (entity pathStr : String) :
    List String → List String → Except MigrationError Unit
  | _, [] => .ok ()
  | seen, v :: rest =>
    if v ∈ seen then .error (.circularMigrationPath entity pathStr)
    else checkCircularPathAux entity pathStr (v :: seen) rest

/-- From `Migrator::check_circular_path` (migrator.rs lines 149-164). -/
def check_circular_path (entity : String) (versions : List String) :
    Except MigrationError Unit :=
  checkCircularPathAux entity (String.intercalate " -> " versions) [] versions

/-- From `Migrator::check_version_ordering` (migrator.rs lines 167-192): for
each adjacent pair, parse both as semver (a parse failure becomes a
`DeserializationError`; the semver crate's own message text is opaque and
elided) and require the second to be strictly greater. -/
def check_version_ordering (entity : String) :
    List String → Except MigrationError Unit
  | current :: next :: rest =>
    match semverParse current with
    | none => .error (.deserializationError ("Invalid semver '" ++ current ++ "'"))
    | some current_ver =>
      match semverParse next with
      | none => .error (.deserializationError ("Invalid semver '" ++ next ++ "'"))
      | some next_ver =>
        if next_ver.leb current_ver then
          .error (.invalidVersionOrder entity current next)
        else
          check_version_ordering entity (next :: rest)
  | _ => .ok ()

/-- From `Migrator::validate_migration_path` (migrator.rs lines 138-146):
cycle check first, then ordering check. -/
def validate_migration_path (entity : String) (versions : List String) :
    Except MigrationError Unit :=
  match check_circular_path entity versions with
  | .error e => .error e
  | .ok () => check_version_ordering entity versions

/-! ## The tagged-value model

`serde_json::Value`, with objects as association lists. -/

/-- The internal generic value (`serde_json::Value`). -/
inductive Json where
  | null
  | bool (b : Bool)
  | num (n : Int)
  | str (s : String)
  | arr (items : List Json)
  | obj (fields : List (String × Json))

/-- From `Value::as_str`. -/
def Json.asStr? : Json → Option String
  | .str s => some s
  | _ => none

/-! ## Migration paths and the Migrator registry

From `migrator.rs`.  The type-erased boxed closures (`MigrationFn`, the
`finalize` closure, `DomainSaveFn`/`DomainSaveFlatFn`) become plain Lean
functions on `Json`; the `Send + Sync` bounds and `PhantomData` are erased.
The two domain-save closures return the JSON text of the produced value in
Rust; the text codec is a black box, so here they return the value itself. -/

/-- From `EntityMigrationPath` (migrator.rs lines 19-31). -/
structure EntityMigrationPath where
  steps : List (String × (Json → Except MigrationError Json))
  finalize : Json → Except MigrationError Json
  versions : List String
  version_key : String
  data_key : String

/-- From `DomainSavers` (migrator.rs lines 34-37). -/
structure DomainSavers where
  save_fn : Json → String → String → Except MigrationError Json
  save_flat_fn : Json → String → Except MigrationError Json

/-- From `Migrator` (migrator.rs lines 40-45). -/
structure Migrator where
  paths : List (String × EntityMigrationPath)
  default_version_key : Option String
  default_data_key : Option String
  domain_savers : List (String × DomainSavers)

/-- From `Migrator::new`. -/
def Migrator.new : Migrator :=
  { paths := [], default_version_key := none, default_data_key := none,
    domain_savers := [] }

/-- From `Migrator::get_latest_version` (migrator.rs lines 63-68). -/
def Migrator.get_latest_version (m : Migrator) (entity : String) : Option String :=
  match assocLookup m.paths entity with
  | none => none
  | some path => path.versions.getLast?

/-- From `MigrationPath<D>` (migrator.rs lines 1677-1692); the `D` phantom is
erased and the save closures carry `Json` results (see module comment). -/
structure MigrationPath where
  entity : String
  inner : EntityMigrationPath
  versions : List String
  custom_version_key : Option String
  custom_data_key : Option String
  save_fn : Option (Json → String → String → Except MigrationError Json)
  save_flat_fn : Option (Json → String → Except MigrationError Json)

/-- From `Migrator::register` (migrator.rs lines 98-135): validate, resolve the
key priority (path custom > migrator default > trait constants carried on
`inner`), insert the final path, and register domain savers when both save
closures are present. -/
def Migrator.register (m : Migrator) (path : MigrationPath) :
    Except MigrationError Migrator :=
  match validate_migration_path path.entity path.versions with
  | .error e => .error e
  | .ok () =>
    let version_key :=
      path.custom_version_key.getD (m.default_version_key.getD path.inner.version_key)
    let data_key :=
      path.custom_data_key.getD (m.default_data_key.getD path.inner.data_key)
    let final_path : EntityMigrationPath :=
      { steps := path.inner.steps, finalize := path.inner.finalize,
        versions := path.versions, version_key := version_key, data_key := data_key }
    let paths2 := assocInsert m.paths path.entity final_path
    let savers2 :=
      match path.save_fn, path.save_flat_fn with
      | some save_fn, some save_flat_fn =>
        assocInsert m.domain_savers path.entity ⟨save_fn, save_flat_fn⟩
      | _, _ => m.domain_savers
    .ok { m with paths := paths2, domain_savers := savers2 }

/-- From `Vec::iter().position(...)` as used by the chain walk: index of the
first occurrence of a version in the path's version list. -/
def listPosition : List String → String → Option Nat
  | [], _ => none
  | x :: xs, v => if x = v then some 0 else (listPosition xs v).map (· + 1)

/-- The chain-walk loop of `Migrator::load_from` / `load_flat_from`
(migrator.rs lines 276-288 and 444-455): while a step exists for the current
version, apply it to the raw payload, then advance the current version to the
next entry of the path's version list (or stop when the current version is
terminal or absent from the list).  The source's `while` loop is embedded with
an explicit iteration bound; `load_from` passes `versions.length`, which the
walk never exhausts on a validated (duplicate-free) path because the current
version's index strictly increases at every iteration. -/
def migrateLoop (path : EntityMigrationPath) :
    Nat → String → Json → Except MigrationError Json
  | 0, _, current_data => .ok current_data
  | fuel + 1, current_version, current_data =>
    match assocLookup path.steps current_version with
    | none => .ok current_data
    | some migrate_fn =>
      match migrate_fn current_data with
      | .error e => .error e
      | .ok next_data =>
        match listPosition path.versions current_version with
        | some idx =>
          if h : idx + 1 < path.versions.length then
            migrateLoop path fuel (path.versions.get ⟨idx + 1, h⟩) next_data
          else .ok next_data
        | none => .ok next_data

/-- From `Migrator::load_from` (migrator.rs lines 226-296).  The input is the
already-converted generic value (for `load` the converted value is the parsed
`serde_json::Value` itself, on which `serde_json::to_value` is the identity);
`dec` stands for the final `serde_json::from_value::<D>` of the caller's
domain type, with `none` modelling a deserialisation failure. -/
def Migrator.load_from {α : Type} (dec : Json → Option α) (m : Migrator)
    (entity : String) (value : Json) : Except MigrationError α :=
  match assocLookup m.paths entity with
  | none => .error (.entityNotFound entity)
  | some path =>
    match value with
    | .obj fields =>
      match assocLookup fields path.version_key with
      | some vj =>
        match vj with
        | .str current_version =>
          match assocLookup fields path.data_key with
          | some current_data =>
            match migrateLoop path path.versions.length current_version current_data with
            | .error e => .error e
            | .ok migrated =>
              match path.finalize migrated with
              | .error e => .error e
              | .ok domain_value =>
                match dec domain_value with
                | some d => .ok d
                | none => .error (.deserializationError "Failed to convert to domain")
          | none =>
            .error (.deserializationError ("Missing '" ++ path.data_key ++ "' field"))
        | _ =>
          .error (.deserializationError
            ("Missing or invalid '" ++ path.version_key ++ "' field"))
      | none =>
        .error (.deserializationError
          ("Missing or invalid '" ++ path.version_key ++ "' field"))
    | _ => .error (.deserializationError "Expected object with version and data fields")

/-- From `Migrator::load` (migrator.rs lines 325-330): parse the JSON text and
delegate to `load_from`.  The text codec is a black box (spec §1), so the
parse is embedded as its outcome: `parsed` is `some v` when the input bytes
parse to the value `v` and `none` when they are not valid JSON (the parse
error's own text is elided). -/
def Migrator.load {α : Type} (dec : Json → Option α) (m : Migrator)
    (entity : String) (parsed : Option Json) : Except MigrationError α :=
  match parsed with
  | none => .error (.deserializationError "Failed to parse JSON")
  | some data => m.load_from dec entity data

/-- From `Migrator::load_flat_from` (migrator.rs lines 398-463): resolve the
path first, remove the version field from the top-level object, keep the
remaining fields as the payload, then run the same chain walk. -/
def Migrator.load_flat_from {α : Type} (dec : Json → Option α) (m : Migrator)
    (entity : String) (value : Json) : Except MigrationError α :=
  match assocLookup m.paths entity with
  | none => .error (.entityNotFound entity)
  | some path =>
    match value with
    | .obj fields =>
      match assocLookup fields path.version_key with
      | none =>
        .error (.deserializationError
          ("Missing '" ++ path.version_key ++ "' field in flat format"))
      | some vj =>
        match vj with
        | .str current_version =>
          let current_data := Json.obj (assocRemove fields path.version_key)
          match migrateLoop path path.versions.length current_version current_data with
          | .error e => .error e
          | .ok migrated =>
            match path.finalize migrated with
            | .error e => .error e
            | .ok domain_value =>
              match dec domain_value with
              | some d => .ok d
              | none => .error (.deserializationError "Failed to convert to domain")
        | _ =>
          .error (.deserializationError
            ("Invalid '" ++ path.version_key ++ "' field type"))
    | _ =>
      .error (.deserializationError "Expected object with version field at top level")

/-- From `Migrator::load_vec_from` (migrator.rs lines 605-613): element-wise
`load_from` collected into a single `Result` — the first element failure
fails the whole batch. -/
def Migrator.load_vec_from {α : Type} (dec : Json → Option α) (m : Migrator)
    (entity : String) : List Json → Except MigrationError (List α)
  | [] => .ok []
  | item :: rest =>
    match m.load_from dec entity item with
    | .error e => .error e
    | .ok d =>
      match m.load_vec_from dec entity rest with
      | .error e => .error e
      | .ok ds => .ok (d :: ds)

/-- From `Migrator::load_vec_flat_from` (migrator.rs lines 725-737). -/
def Migrator.load_vec_flat_from {α : Type} (dec : Json → Option α) (m : Migrator)
    (entity : String) : List Json → Except MigrationError (List α)
  | [] => .ok []
  | item :: rest =>
    match m.load_flat_from dec entity item with
    | .error e => .error e
    | .ok d =>
      match m.load_vec_flat_from dec entity rest with
      | .error e => .error e
      | .ok ds => .ok (d :: ds)

/-- From `Migrator::save` (migrator.rs lines 495-516): wrap the serialised
payload as `{version_key: VERSION, data_key: payload}` using the type's
`Versioned` trait constants (`version_key`, `data_key`, `version` here), and
serialise.  `self` is unused by the source as well; the final text
serialisation is the black-box codec, so the tagged value itself is
returned. -/
def Migrator.save (_m : Migrator) (version_key data_key version : String)
    (data_value : Json) : Json :=
  Json.obj (assocInsert (assocInsert [] version_key (Json.str version))
    data_key data_value)

/-- From `Migrator::save_domain_flat` (migrator.rs lines 1123-1145): look up
the registered domain saver and the path's resolved version key, then apply
the flat save closure. -/
def Migrator.save_domain_flat (m : Migrator) (entity_name : String)
    (entity : Json) : Except MigrationError Json :=
  match assocLookup m.domain_savers entity_name with
  | none =>
    .error (.entityNotFound
      ("Entity '" ++ entity_name ++
        "' is not registered with domain save support. Use into_with_save() when defining the migration path."))
  | some saver =>
    match assocLookup m.paths entity_name with
    | none =>
      .error (.entityNotFound ("Entity '" ++ entity_name ++ "' is not registered"))
    | some path => saver.save_flat_fn entity path.version_key

/-- The `finalize` closure built by `MigrationPathBuilder::into` (migrator.rs
lines 1320-1341): deserialise the terminal versioned value, convert it to the
domain model, and re-serialise.  `decV`/`encD` stand for the serde codecs of
the two types and `toD` for `IntoDomain::into_domain`. -/
def finalizeOf {α β : Type} (decV : Json → Option α) (toD : α → β)
    (encD : β → Json) : Json → Except MigrationError Json :=
  fun value =>
    match decV value with
    | some versioned => .ok (encD (toD versioned))
    | none => .error (.deserializationError "Failed to deserialize final version")

/-! ## ConfigMigrator (partial-document query/update)

From `migrator.rs` lines 1728-1861. -/

/-- Outcome of an operation that can also `panic!` / `todo!`. -/
inductive Outcome (α : Type) where
  | ok (a : α)
  | err (e : MigrationError)
  | panicked (msg : String)

/-- Boolean test for the `panicked` outcome. -/
def Outcome.isPanicB {α : Type} : Outcome α → Bool
  | .panicked _ => true
  | _ => false

/-- From `ConfigMigrator` (migrator.rs lines 1728-1731). -/
structure ConfigMigrator where
  root : Json
  migrator : Migrator

/-- The per-item stamping step of `ConfigMigrator::update` (migrator.rs lines
1816-1831): serialise the item and, when it is an object, insert the literal
field name `"version"` mapped to the latest version; non-object items are left
unchanged. -/
def stampLiteralVersion (latest : String) (item : Json) : Json :=
  match item with
  | .obj fields => .obj (assocInsert fields "version" (.str latest))
  | other => other

/-- From `ConfigMigrator::update` (migrator.rs lines 1805-1835): resolve the
entity's latest version (`T::ENTITY_NAME` is `entity_name` here; the items are
their serialised `Json` values), stamp each item with the literal `"version"`
field, and assign the array to `self.root[key]`.  The `serde_json` index
assignment inserts into an object, turns `Null` into a fresh object, and
panics on any other root value. -/
def ConfigMigrator.update (cm : ConfigMigrator) (entity_name key : String)
    (data : List Json) : Outcome ConfigMigrator :=
  match cm.migrator.get_latest_version entity_name with
  | none => .err (.entityNotFound entity_name)
  | some latest_version =>
    let items := data.map (stampLiteralVersion latest_version)
    match cm.root with
    | .obj fields =>
      .ok { cm with root := .obj (assocInsert fields key (.arr items)) }
    | .null => .ok { cm with root := .obj [(key, .arr items)] }
    | _ => .panicked "cannot access index of a non-object value"

/-! ## Atomic writes and the filesystem model

From `FileStorage` (storage.rs lines 20-365) and `DirStorage::atomic_write` /
`atomic_rename` (dir_storage.rs lines 360-533); the two `atomic_rename`
implementations are textually identical.  The filesystem is an association
list from paths to contents; `fs::rename` fails when the source is missing,
and transient failures (the spec's injected rename failures) are driven by a
Boolean oracle over the attempt index.  The injected OS error's text is
opaque; `renameFailureMsg` stands for it. -/

/-- Filesystem state: path to file content. -/
abbrev Fs := List (String × String)

/-- Filesystem update (create or overwrite a file). -/
def fsSet (fs : Fs) (path content : String) : Fs :=
  assocInsert fs path content

/-- Filesystem file removal. -/
def fsRemove (fs : Fs) (path : String) : Fs :=
  fs.filter (fun e => e.1 ≠ path)

/-- Semantics of a successful `fs::rename`: the target atomically becomes the
source's content and the source disappears; fails when the source is
missing. -/
def fsRename (fs : Fs) (src dst : String) : Option Fs :=
  match assocLookup fs src with
  | none => none
  | some content => some (fsSet (fsRemove fs src) dst content)

/-- From `AtomicWriteConfig` (storage.rs lines 22-36). -/
structure AtomicWriteConfig where
  retry_count : Nat
  cleanup_tmp_files : Bool

/-- From `AtomicWriteConfig::default` (retry count 3, cleanup on). -/
def AtomicWriteConfig.default : AtomicWriteConfig :=
  { retry_count := 3, cleanup_tmp_files := true }

/-- Result of a filesystem-mutating storage operation; `err` and `panicked`
carry the filesystem state left behind. -/
inductive FsResult where
  | ok (fs : Fs)
  | err (e : MigrationError) (fs : Fs)
  | panicked (msg : String) (fs : Fs)

/-- Boolean test for the `err` outcome of a storage operation. -/
def FsResult.isErrB : FsResult → Bool
  | .err _ _ => true
  | _ => false

/-- Placeholder for the text of the OS error of an injected rename failure. -/
def renameFailureMsg : String := "injected rename failure"

/-- Placeholder for the text of `fs::rename` failing on a missing source. -/
def renameSourceMissingMsg : String := "No such file or directory"

/-- Message of the panic of `Option::unwrap` on `None`. -/
def unwrapNoneMsg : String := "called Option::unwrap() on a None value"

/-- The retry loop of `FileStorage::atomic_rename` (storage.rs lines 312-336)
and `DirStorage::atomic_rename` (dir_storage.rs lines 474-498): `remaining`
counts the loop iterations still to run (the current attempt index is
`retry_count - remaining`), `last_error` is the last failure.  After the loop
the code unconditionally builds an `IoError` from `last_error.unwrap()`, which
panics when the loop body never ran.  The inter-attempt sleep carries no
state and is elided. -/
def atomicRenameGo (fails : Nat → Bool) (tmp_path target_path : String)
    (retry_count : Nat) (fs : Fs) : Nat → Option String → FsResult
  | 0, last_error =>
    match last_error with
    | some e =>
      .err (.ioError target_path
        ("Failed to rename after " ++ toString retry_count ++ " attempts: " ++ e)) fs
    | none => .panicked unwrapNoneMsg fs
  | remaining + 1, _last_error =>
    let attempt := retry_count - (remaining + 1)
    if fails attempt then
      atomicRenameGo fails tmp_path target_path retry_count fs remaining
        (some renameFailureMsg)
    else
      match fsRename fs tmp_path target_path with
      | some fs2 => .ok fs2
      | none =>
        atomicRenameGo fails tmp_path target_path retry_count fs remaining
          (some renameSourceMissingMsg)

/-- From `FileStorage::atomic_rename` / `DirStorage::atomic_rename`: rename
with bounded retry. -/
def atomic_rename (retry_count : Nat) (fails : Nat → Bool)
    (tmp_path target_path : String) (fs : Fs) : FsResult :=
  atomicRenameGo fails tmp_path target_path retry_count fs retry_count none

/-- From `FileStorage::get_temp_path` (storage.rs lines 293-309) and
`DirStorage::get_temp_path` (dir_storage.rs lines 444-459): the hidden temp
name `.{file_name}.tmp.{pid}` in the same directory (paths here are relative
to that directory). -/
def get_temp_path (file_name : String) (pid : Nat) : String :=
  "." ++ file_name ++ ".tmp." ++ toString pid

/-- From `FileStorage::cleanup_temp_files` (storage.rs lines 339-364) and
`DirStorage::cleanup_temp_files` (dir_storage.rs lines 508-533): best-effort
removal of every file whose name starts with `.{file_name}.tmp.`. -/
def cleanup_temp_files (file_name : String) (fs : Fs) : Fs :=
  let pat := "." ++ file_name ++ ".tmp."
  fs.filter (fun e => !(pat.data.isPrefixOf e.1.data))

/-- The shared atomic-write path of `FileStorage::save` (storage.rs lines
220-250, after the content is produced) and `DirStorage::atomic_write`
(dir_storage.rs lines 382-426): write the content to the temp file (create,
`write_all`, `sync_all`), atomically rename it onto the target with retry,
then best-effort cleanup of stale temp files when configured. -/
def atomic_write (cfg : AtomicWriteConfig) (fails : Nat → Bool) (pid : Nat)
    (target_path content : String) (fs : Fs) : FsResult :=
  let tmp_path := get_temp_path target_path pid
  let fs1 := fsSet fs tmp_path content
  match atomic_rename cfg.retry_count fails tmp_path target_path fs1 with
  | .ok fs2 =>
    .ok (if cfg.cleanup_tmp_files then cleanup_temp_files target_path fs2 else fs2)
  | .err e fs2 => .err e fs2
  | .panicked msg fs2 => .panicked msg fs2

/-! ## DirStorage

From `dir_storage.rs`.  The base directory's entries are an `Fs` keyed by
file name (paths relative to the resolved `base_path`, whose common prefix is
elided); every entry is a regular file.  The JSON/TOML content codecs are
black-box parameters `parse` / `ser` (spec §1). -/

/-- From `FormatStrategy` (storage.rs lines 13-18). -/
inductive FormatStrategy where
  | toml
  | json
deriving DecidableEq

/-- From `FilenameEncoding` (dir_storage.rs lines 53-60). -/
inductive FilenameEncoding where
  | direct
  | urlEncode
  | base64
deriving DecidableEq

/-- From `DirStorageStrategy` (dir_storage.rs lines 70-79). -/
structure DirStorageStrategy where
  format : FormatStrategy
  atomic_write : AtomicWriteConfig
  extension : Option String
  filename_encoding : FilenameEncoding

/-- From `DirStorageStrategy::get_extension` (dir_storage.rs lines 135-140). -/
def DirStorageStrategy.get_extension (s : DirStorageStrategy) : String :=
  s.extension.getD (match s.format with | .json => "json" | .toml => "toml")

/-- From `DirStorage` (dir_storage.rs lines 150-157); `base_path` is carried
but file locations are modelled relative to it. -/
structure DirStorage where
  base_path : String
  migrator : Migrator
  strategy : DirStorageStrategy

/-- Character whitelist of the `Direct` encoding
(`is_ascii_alphanumeric`, `-`, `_`). -/
def isSafeChar (c : Char) : Bool :=
  c.isAlphanum || c = '-' || c = '_'

/-- The reason carried by the `Direct` encoding's `FilenameEncoding` error. -/
def directEncodingReason : String :=
  "ID contains invalid characters for Direct encoding. Only alphanumeric, '-', and '_' are allowed."

/-- From `DirStorage::encode_id` (dir_storage.rs lines 308-333): `Direct`
validates the whitelist and passes the id through; `UrlEncode` and `Base64`
hit `todo!` and panic. -/
def DirStorage.encode_id (st : DirStorage) (id : String) : Outcome String :=
  match st.strategy.filename_encoding with
  | .direct =>
    if id.data.all isSafeChar then .ok id
    else .err (.filenameEncoding id directEncodingReason)
  | .urlEncode => .panicked "not yet implemented: UrlEncode is not yet implemented"
  | .base64 => .panicked "not yet implemented: Base64 encoding is not yet implemented"

/-- From `DirStorage::decode_id` (dir_storage.rs lines 807-822): `Direct`
passes the stem through; `UrlEncode` and `Base64` hit `todo!` and panic. -/
def DirStorage.decode_id (st : DirStorage) (filename_stem : String) : Outcome String :=
  match st.strategy.filename_encoding with
  | .direct => .ok filename_stem
  | .urlEncode => .panicked "not yet implemented: UrlEncode decoding is not yet implemented"
  | .base64 => .panicked "not yet implemented: Base64 decoding is not yet implemented"

/-- From `DirStorage::id_to_path` (dir_storage.rs lines 284-289):
`{encoded_id}.{extension}` (relative to the base directory). -/
def DirStorage.id_to_path (st : DirStorage) (id : String) : Outcome String :=
  match st.encode_id id with
  | .ok encoded_id => .ok (encoded_id ++ "." ++ st.strategy.get_extension)
  | .err e => .err e
  | .panicked msg => .panicked msg

/-- Split a file name into `Path::file_stem` and `Path::extension`: the stem
is everything before the last `.`, the extension everything after it; a name
without a `.` past its first character has no extension. -/
def splitStemExt (name : String) : Option (String × String) :=
  match (splitOnChar '.' name.data).reverse with
  | ext :: stemRev =>
    match stemRev with
    | [] => none
    | _ =>
      let stem := (stemRev.reverse.intersperse ['.']).flatten
      if stem.isEmpty then none else some (⟨stem⟩, ⟨ext⟩)
  | [] => none

/-- From `DirStorage::exists` (dir_storage.rs lines 701-704). -/
def DirStorage.existsFile (st : DirStorage) (dir : Fs) (id : String) : Outcome Bool :=
  match st.id_to_path id with
  | .ok file_path => .ok (assocLookup dir file_path).isSome
  | .err e => .err e
  | .panicked msg => .panicked msg

/-- From `DirStorage::delete` (dir_storage.rs lines 725-736): idempotent
removal of the entity's file. -/
def DirStorage.delete (st : DirStorage) (dir : Fs) (id : String) : Outcome Fs :=
  match st.id_to_path id with
  | .ok file_path =>
    if (assocLookup dir file_path).isSome then .ok (fsRemove dir file_path)
    else .ok dir
  | .err e => .err e
  | .panicked msg => .panicked msg

/-- From `DirStorage::load` (dir_storage.rs lines 562-588): compute the file
path, require the file to exist, read it, decode the content through the
black-box codec (`parse`; a failure's message is elided), and migrate through
`load_flat_from`. -/
def DirStorage.load {α : Type} (dec : Json → Option α) (parse : String → Option Json)
    (st : DirStorage) (dir : Fs) (entity_name id : String) : Outcome α :=
  match st.id_to_path id with
  | .err e => .err e
  | .panicked msg => .panicked msg
  | .ok file_path =>
    match assocLookup dir file_path with
    | none => .err (.ioError file_path "File not found")
    | some content =>
      match parse content with
      | none => .err (.deserializationError "invalid content")
      | some value =>
        match st.migrator.load_flat_from dec entity_name value with
        | .ok d => .ok d
        | .error e => .err e

/-- Ascending insertion used to model `ids.sort()`. -/
def insertSorted (x : String) : List String → List String
  | [] => [x]
  | y :: ys => if charsLtB y.data x.data then y :: insertSorted x ys else x :: y :: ys

/-- Sorted copy of a list of ids (`ids.sort()` in `list_ids`). -/
def sortStrings (l : List String) : List String :=
  l.foldr insertSorted []

/-- The entry loop of `DirStorage::list_ids` (dir_storage.rs lines 620-639):
for each directory entry whose extension matches the configured one, decode
the file stem into an id (`path_to_id`); other entries are skipped. -/
def listIdsGo (st : DirStorage) : List String → List String → Outcome (List String)
  | acc, [] => .ok (sortStrings acc)
  | acc, name :: rest =>
    match splitStemExt name with
    | some (stem, ext) =>
      if ext = st.strategy.get_extension then
        match st.decode_id stem with
        | .ok id => listIdsGo st (acc ++ [id]) rest
        | .err e => .err e
        | .panicked msg => .panicked msg
      else listIdsGo st acc rest
    | none => listIdsGo st acc rest

/-- From `DirStorage::list_ids` (dir_storage.rs lines 610-644): collect and
sort the decoded ids of all entries with the configured extension. -/
def DirStorage.list_ids (st : DirStorage) (dir : Fs) : Outcome (List String) :=
  listIdsGo st [] (dir.map (·.1))

/-- The aggregation loop of `DirStorage::load_all` (dir_storage.rs lines
673-681). -/
def loadAllGo {α : Type} (dec : Json → Option α) (parse : String → Option Json)
    (st : DirStorage) (dir : Fs) (entity_name : String) :
    List (String × α) → List String → Outcome (List (String × α))
  | acc, [] => .ok acc
  | acc, id :: rest =>
    match DirStorage.load dec parse st dir entity_name id with
    | .ok entity => loadAllGo dec parse st dir entity_name (acc ++ [(id, entity)]) rest
    | .err e => .err e
    | .panicked msg => .panicked msg

/-- From `DirStorage::load_all` (dir_storage.rs lines 669-682): `load` over
`list_ids`, all-or-nothing. -/
def DirStorage.load_all {α : Type} (dec : Json → Option α)
    (parse : String → Option Json) (st : DirStorage) (dir : Fs)
    (entity_name : String) : Outcome (List (String × α)) :=
  match st.list_ids dir with
  | .ok ids => loadAllGo dec parse st dir entity_name [] ids
  | .err e => .err e
  | .panicked msg => .panicked msg

/-- From `DirStorage::save` (dir_storage.rs lines 245-266): convert the entity
through the migrator's registered flat saver, serialise the versioned value
through the black-box codec `ser`, compute the target path from the id, and
write atomically.  (The source's parse-back of the saver's JSON text is the
codec round-trip and is elided with it.) -/
def DirStorage.save (fails : Nat → Bool) (pid : Nat) (ser : Json → String)
    (st : DirStorage) (dir : Fs) (entity_name id : String) (entity : Json) :
    FsResult :=
  match st.migrator.save_domain_flat entity_name entity with
  | .error e => .err e dir
  | .ok versioned_value =>
    let content := ser versioned_value
    match st.id_to_path id with
    | .err e => .err e dir
    | .panicked msg => .panicked msg dir
    | .ok file_path => atomic_write st.strategy.atomic_write fails pid file_path content dir

/-! ## Spec-side predicates

Decidable predicates used to state the claims (following the spec's words,
for comparison with the embedded code). -/

/-- Spec-side test for one adjacent version pair: both parse as semver and the
second is strictly greater. -/
def pairIncreasingB (a b : String) : Bool :=
  match semverParse a, semverParse b with
  | some x, some y => !(y.leb x)
  | _, _ => false

/-- Spec-side test for one adjacent version pair: both parse as semver. -/
def pairParseB (a b : String) : Bool :=
  (semverParse a).isSome && (semverParse b).isSome

/-- A Boolean predicate holding for every adjacent pair of a list. -/
def chainPairsB (f : String → String → Bool) : List String → Bool
  | a :: b :: rest => f a b && chainPairsB f (b :: rest)
  | _ => true

/-- The strings `a` and `b` occur adjacently, in this order, in `l`. -/
def adjPair (a b : String) (l : List String) : Prop :=
  ∃ l1 l2, l = l1 ++ a :: b :: l2

/-- The tagged (nested) wire shape `{version_key: v, data_key: payload}`
built the way `Migrator::save` builds it. -/
def taggedJson (version_key data_key v : String) (payload : Json) : Json :=
  Json.obj (assocInsert (assocInsert [] version_key (Json.str v)) data_key payload)

/-- A directory entry name has the storage's configured extension (the test
`list_ids` applies before decoding the stem). -/
def extMatchesB (st : DirStorage) (name : String) : Bool :=
  match splitStemExt name with
  | some (_, ext) => ext = st.strategy.get_extension
  | none => false

/-! # Lemmas -/

theorem assocLookup_insert {α : Type} (l : List (String × α)) (k k2 : String) (v : α) :
    assocLookup (assocInsert l k v) k2 = if k = k2 then some v else assocLookup l k2 := by
  induction l with
  | nil => simp [assocInsert, assocLookup]
  | cons hd tl ih =>
    obtain ⟨k0, v0⟩ := hd
    by_cases h0 : k0 = k
    · subst h0
      by_cases h2 : k0 = k2 <;> simp [assocInsert, assocLookup, h2]
    · by_cases h2 : k0 = k2
      · subst h2
        have hk : k ≠ k0 := fun h => h0 h.symm
        simp [assocInsert, assocLookup, h0, hk]
      · simp [assocInsert, assocLookup, h0, h2, ih]

theorem assocLookup_filter_key {α : Type} (q : String → Bool) (l : List (String × α))
    (k : String) (hq : q k = true) :
    assocLookup (l.filter (fun e => q e.1)) k = assocLookup l k := by
  induction l with
  | nil => rfl
  | cons hd tl ih =>
    obtain ⟨k0, v0⟩ := hd
    by_cases h0 : k0 = k
    · subst h0
      simp [List.filter, hq, assocLookup]
    · by_cases hq0 : q k0 <;> simp [List.filter, hq0, assocLookup, h0, ih]

/-! ### Registration-time validation -/

theorem checkCircularPathAux_shape (e p : String) :
    ∀ (l seen : List String),
      checkCircularPathAux e p seen l = .ok () ∨
      checkCircularPathAux e p seen l = .error (.circularMigrationPath e p)
  | [], _ => .inl rfl
  | v :: rest, seen => by
    by_cases hv : v ∈ seen
    · right
      simp [checkCircularPathAux, hv]
    · rw [show checkCircularPathAux e p seen (v :: rest)
          = checkCircularPathAux e p (v :: seen) rest by
        simp [checkCircularPathAux, hv]]
      exact checkCircularPathAux_shape e p rest (v :: seen)

theorem checkCircularPathAux_ok_iff (e p : String) :
    ∀ (l seen : List String),
      checkCircularPathAux e p seen l = .ok () ↔ (l.Nodup ∧ ∀ x ∈ l, x ∉ seen)
  | [], seen => by simp [checkCircularPathAux]
  | v :: rest, seen => by
    by_cases hv : v ∈ seen
    · simp only [checkCircularPathAux, if_pos hv]
      constructor
      · intro h
        exact absurd h (by simp)
      · rintro ⟨_, hall⟩
        exact absurd hv (hall v (by simp))
    · rw [show checkCircularPathAux e p seen (v :: rest)
          = checkCircularPathAux e p (v :: seen) rest by
        simp [checkCircularPathAux, hv]]
      rw [checkCircularPathAux_ok_iff e p rest (v :: seen)]
      simp only [List.nodup_cons, List.mem_cons, not_or]
      constructor
      · rintro ⟨hnd, hall⟩
        refine ⟨⟨fun hmem => (hall v hmem).1 rfl, hnd⟩, fun x hx => ?_⟩
        rcases hx with rfl | hx
        · exact hv
        · exact (hall x hx).2
      · rintro ⟨⟨hvr, hnd⟩, hall⟩
        exact ⟨hnd, fun x hx => ⟨fun hxv => hvr (hxv ▸ hx), hall x (Or.inr hx)⟩⟩

theorem check_circular_path_ok_iff (e : String) (l : List String) :
    check_circular_path e l = .ok () ↔ l.Nodup := by
  rw [check_circular_path, checkCircularPathAux_ok_iff]
  simp

theorem check_circular_path_dup (e : String) (l : List String) (h : ¬ l.Nodup) :
    check_circular_path e l
      = .error (.circularMigrationPath e (String.intercalate " -> " l)) := by
  rcases checkCircularPathAux_shape e (String.intercalate " -> " l) l [] with hok | herr
  · exact absurd ((check_circular_path_ok_iff e l).1 hok) h
  · exact herr

theorem check_version_ordering_ok_iff (e : String) :
    ∀ l : List String,
      check_version_ordering e l = .ok () ↔ chainPairsB pairIncreasingB l = true
  | [] => by simp [check_version_ordering, chainPairsB]
  | [a] => by simp [check_version_ordering, chainPairsB]
  | a :: b :: rest => by
    rw [check_version_ordering]
    match ha : semverParse a with
    | none => simp [chainPairsB, pairIncreasingB, ha]
    | some x =>
      match hb : semverParse b with
      | none => simp [chainPairsB, pairIncreasingB, ha, hb]
      | some y =>
        by_cases hle : y.leb x
        · simp [chainPairsB, pairIncreasingB, ha, hb, hle]
        · simp only [hle, if_false, Bool.false_eq_true]
          rw [check_version_ordering_ok_iff e (b :: rest)]
          simp [chainPairsB, pairIncreasingB, ha, hb, hle]

theorem check_version_ordering_err_shape (e : String) :
    ∀ (l : List String) (err : MigrationError),
      check_version_ordering e l = .error err →
      (∃ v, err = .deserializationError ("Invalid semver '" ++ v ++ "'")
        ∧ v ∈ l ∧ semverParse v = none) ∨
      (∃ a b x y, err = .invalidVersionOrder e a b ∧ adjPair a b l
        ∧ semverParse a = some x ∧ semverParse b = some y ∧ y.leb x = true)
  | [], err => by simp [check_version_ordering]
  | [a], err => by simp [check_version_ordering]
  | a :: b :: rest, err => by
    rw [check_version_ordering]
    match ha : semverParse a with
    | none =>
      intro h
      left
      have h2 : MigrationError.deserializationError ("Invalid semver '" ++ a ++ "'") = err := by
        simpa using h
      exact ⟨a, h2.symm, by simp, ha⟩
    | some x =>
      match hb : semverParse b with
      | none =>
        intro h
        left
        have h2 : MigrationError.deserializationError ("Invalid semver '" ++ b ++ "'") = err := by
          simpa using h
        exact ⟨b, h2.symm, by simp, hb⟩
      | some y =>
        by_cases hle : y.leb x
        · intro h
          right
          have h2 : MigrationError.invalidVersionOrder e a b = err := by
            simpa [hle] using h
          exact ⟨a, b, x, y, h2.symm, ⟨[], rest, rfl⟩, ha, hb, hle⟩
        · intro h
          rcases check_version_ordering_err_shape e (b :: rest) err
              (by simpa [hle] using h) with ⟨v, hv, hvmem, hvp⟩ | ⟨a2, b2, x2, y2, he, ⟨l1, l2, hadj⟩, h1, h2, h3⟩
          · exact .inl ⟨v, hv, by simp [List.mem_cons] at hvmem ⊢; tauto, hvp⟩
          · exact .inr ⟨a2, b2, x2, y2, he, ⟨a :: l1, l2, by rw [hadj]; rfl⟩, h1, h2, h3⟩

theorem validate_ok_iff (e : String) (l : List String) :
    validate_migration_path e l = .ok ()
      ↔ (l.Nodup ∧ chainPairsB pairIncreasingB l = true) := by
  rw [validate_migration_path]
  rcases checkCircularPathAux_shape e (String.intercalate " -> " l) l [] with hok | herr
  · rw [show check_circular_path e l = .ok () from hok]
    rw [check_version_ordering_ok_iff]
    have hnd := (check_circular_path_ok_iff e l).1 hok
    simp [hnd]
  · rw [show check_circular_path e l
        = .error (.circularMigrationPath e (String.intercalate " -> " l)) from herr]
    have hnd : ¬ l.Nodup := by
      intro hnd
      have hok2 := (check_circular_path_ok_iff e l).2 hnd
      exact Except.noConfusion (hok2.symm.trans herr)
    simp [hnd]

theorem validate_dup (e : String) (l : List String) (h : ¬ l.Nodup) :
    validate_migration_path e l
      = .error (.circularMigrationPath e (String.intercalate " -> " l)) := by
  rw [validate_migration_path, check_circular_path_dup e l h]

theorem validate_err_shape (e : String) (l : List String) (err : MigrationError)
    (hnd : l.Nodup) (h : validate_migration_path e l = .error err) :
    (∃ v, err = .deserializationError ("Invalid semver '" ++ v ++ "'")
      ∧ v ∈ l ∧ semverParse v = none) ∨
    (∃ a b x y, err = .invalidVersionOrder e a b ∧ adjPair a b l
      ∧ semverParse a = some x ∧ semverParse b = some y ∧ y.leb x = true) := by
  rw [validate_migration_path, (check_circular_path_ok_iff e l).2 hnd] at h
  exact check_version_ordering_err_shape e l err h

/-! # Claims -/

/-- C1 (counterexample): the claim requires registration to fail on a
single-version list whose only version is not valid semver; but validation
never parses a version that is not part of an adjacent pair, so registering
the one-version path `["not-a-semver"]` succeeds even though the version
fails to parse. -/
theorem single_invalid_version_registers :
    validate_migration_path "task" ["not-a-semver"] = .ok ()
      ∧ semverParse "not-a-semver" = none
      ∧ isOkB (Migrator.new.register
          ⟨"task", ⟨[], fun j => .ok j, ["not-a-semver"], "version", "data"⟩,
            ["not-a-semver"], none, none, none, none⟩) = true :=
  ⟨rfl, rfl, rfl⟩

/-- C1 (amended): registration succeeds iff the version list has no repeats
and every adjacent pair is two valid semver versions in strictly increasing
order (versions in lists of length at most one are never parsed, so a lone
syntactically invalid version is accepted); a repeat fails with
`CircularMigrationPath` carrying the joined version sequence; otherwise a
failure is either a `DeserializationError` naming a version that fails to
parse, or `InvalidVersionOrder` naming an adjacent pair of valid versions
that does not strictly increase. -/
theorem register_validation_characterization (entity : String) (versions : List String) :
    (validate_migration_path entity versions = .ok ()
      ↔ (versions.Nodup ∧ chainPairsB pairIncreasingB versions = true))
    ∧ (¬ versions.Nodup →
        validate_migration_path entity versions
          = .error (.circularMigrationPath entity (String.intercalate " -> " versions)))
    ∧ (∀ err, versions.Nodup → validate_migration_path entity versions = .error err →
        (∃ v, err = .deserializationError ("Invalid semver '" ++ v ++ "'")
          ∧ v ∈ versions ∧ semverParse v = none) ∨
        (∃ a b x y, err = .invalidVersionOrder entity a b ∧ adjPair a b versions
          ∧ semverParse a = some x ∧ semverParse b = some y ∧ y.leb x = true)) :=
  ⟨validate_ok_iff entity versions,
   validate_dup entity versions,
   fun err hnd h => validate_err_shape entity versions err hnd h⟩

/-- C1 (witness): the characterization applied to the concrete list
`["1.0.0", "2.0.0"]` (accepted) and to `["2.0.0", "1.0.0"]` (rejected with
`InvalidVersionOrder`). -/
theorem register_validation_characterization_witness :
    validate_migration_path "task" ["1.0.0", "2.0.0"] = .ok ()
      ∧ validate_migration_path "task" ["2.0.0", "1.0.0"]
          = .error (.invalidVersionOrder "task" "2.0.0" "1.0.0") :=
  ⟨(register_validation_characterization "task" ["1.0.0", "2.0.0"]).1.2
      ⟨by decide, by decide⟩,
   by
    rcases (register_validation_characterization "task" ["2.0.0", "1.0.0"]).2.2
        (.invalidVersionOrder "task" "2.0.0" "1.0.0") (by decide) rfl with h | h
    · exact rfl
    · exact rfl⟩

/-- C8: registration runs the duplicate scan before the ordering scan, so any
version list with a repeated version — even one that also violates semver
ordering or contains syntactically invalid versions — makes `register` fail
with `CircularMigrationPath` whose `entity` field is the entity name and
whose `path` field is the full version sequence joined in order. -/
theorem register_duplicate_version_circular_error (m : Migrator)
    (path : MigrationPath) (h : ¬ path.versions.Nodup) :
    m.register path
      = .error (.circularMigrationPath path.entity
          (String.intercalate " -> " path.versions)) := by
  rw [Migrator.register, validate_dup path.entity path.versions h]

/-- C8 (witness): a list with a duplicate, an ordering violation and an
invalid semver version still reports `CircularMigrationPath` with the joined
sequence. -/
theorem register_duplicate_version_circular_error_witness :
    Migrator.new.register
        ⟨"task", ⟨[], fun j => .ok j, ["2.0.0", "bad", "2.0.0"], "version", "data"⟩,
          ["2.0.0", "bad", "2.0.0"], none, none, none, none⟩
      = .error (.circularMigrationPath "task" "2.0.0 -> bad -> 2.0.0") := by
  rw [register_duplicate_version_circular_error Migrator.new _ (by decide)]
  rfl

/-! ### Atomic rename / atomic write -/

theorem atomicRenameGo_succ (fails : Nat → Bool) (tmp target : String) (rc : Nat)
    (fs : Fs) (r : Nat) (lastErr : Option String) :
    atomicRenameGo fails tmp target rc fs (r + 1) lastErr
      = if fails (rc - (r + 1)) then
          atomicRenameGo fails tmp target rc fs r (some renameFailureMsg)
        else
          match fsRename fs tmp target with
          | some fs2 => .ok fs2
          | none => atomicRenameGo fails tmp target rc fs r (some renameSourceMissingMsg) :=
  rfl

theorem atomicRenameGo_all_fail (fails : Nat → Bool) (tmp target : String) (rc : Nat)
    (hall : ∀ j, j < rc → fails j = true) :
    ∀ (remaining : Nat), 1 ≤ remaining → remaining ≤ rc →
      ∀ (fs : Fs) (lastErr : Option String),
      atomicRenameGo fails tmp target rc fs remaining lastErr
        = .err (.ioError target
            ("Failed to rename after " ++ toString rc ++ " attempts: "
              ++ renameFailureMsg)) fs
  | 0, h1, _ => absurd h1 (by omega)
  | 1, _, hle => fun fs lastErr => by
    rw [atomicRenameGo_succ, if_pos (hall _ (by omega))]
    rfl
  | r + 2, _, hle => fun fs lastErr => by
    rw [atomicRenameGo_succ, if_pos (hall _ (by omega))]
    exact atomicRenameGo_all_fail fails tmp target rc hall (r + 1) (by omega)
      (by omega) fs _

theorem atomicRenameGo_success (fails : Nat → Bool) (tmp target : String)
    (rc N : Nat) (hN : N < rc) (hfail : ∀ j, j < N → fails j = true)
    (hsucc : fails N = false) (fs fs2 : Fs)
    (hren : fsRename fs tmp target = some fs2) :
    ∀ (k : Nat), k ≤ N → ∀ (lastErr : Option String),
      atomicRenameGo fails tmp target rc fs (rc - k) lastErr = .ok fs2
  | k, hk, lastErr => by
    have hrem : rc - k = (rc - (k + 1)) + 1 := by omega
    rw [hrem, atomicRenameGo_succ]
    have hattempt : rc - (rc - (k + 1) + 1) = k := by omega
    rw [hattempt]
    by_cases hkN : k = N
    · subst hkN
      rw [hsucc]
      simp [hren]
    · rw [hfail k (by omega)]
      simp only [if_true]
      exact atomicRenameGo_success fails tmp target rc N hN hfail hsucc fs fs2 hren
        (k + 1) (by omega) _
  termination_by k => N - k

/-- C9: the atomic rename helper is total only for a positive retry count:
with `retry_count ≥ 1` a persistently failing rename returns an `IoError`
whose message carries the attempt count, but with `retry_count = 0` the retry
loop body never runs, `last_error` stays `None`, and the final
`last_error.unwrap()` panics instead of returning an error. -/
theorem atomic_rename_retry_totality (rc : Nat) (fails : Nat → Bool)
    (tmp target : String) (fs : Fs) :
    (1 ≤ rc → (∀ j, j < rc → fails j = true) →
      atomic_rename rc fails tmp target fs
        = .err (.ioError target
            ("Failed to rename after " ++ toString rc ++ " attempts: "
              ++ renameFailureMsg)) fs)
    ∧ (rc = 0 → atomic_rename rc fails tmp target fs = .panicked unwrapNoneMsg fs) := by
  constructor
  · intro h1 hall
    exact atomicRenameGo_all_fail fails tmp target rc hall rc h1 le_rfl fs none
  · rintro rfl
    rfl

/-- C9 (witness): two attempts that both fail produce the `IoError` naming two
attempts; zero configured attempts panic. -/
theorem atomic_rename_retry_totality_witness :
    atomic_rename 2 (fun _ => true) ".t.tmp.1" "t" []
      = .err (.ioError "t" "Failed to rename after 2 attempts: injected rename failure") []
    ∧ atomic_rename 0 (fun _ => true) ".t.tmp.1" "t" []
      = .panicked unwrapNoneMsg [] :=
  ⟨by
    rw [(atomic_rename_retry_totality 2 (fun _ => true) ".t.tmp.1" "t" []).1
      (by decide) (fun j _ => rfl)]
    rfl,
   (atomic_rename_retry_totality 0 (fun _ => true) ".t.tmp.1" "t" []).2 rfl⟩

theorem get_temp_path_ne (file_name : String) (pid : Nat) :
    get_temp_path file_name pid ≠ file_name := by
  intro h
  have hd := congrArg String.data h
  rw [get_temp_path] at hd
  rw [String.data_append, String.data_append, String.data_append] at hd
  have hlen := congrArg List.length hd
  rw [List.length_append, List.length_append, List.length_append] at hlen
  have h1 : (String.data ".").length = 1 := rfl
  have h2 : (String.data ".tmp.").length = 5 := rfl
  omega

theorem cons_append_not_initial_seg (c : Char) (t rest : List Char) :
    (c :: (t ++ rest)).isPrefixOf t = false := by
  by_contra hc
  have hb : (c :: (t ++ rest)).isPrefixOf t = true := by
    revert hc
    cases (c :: (t ++ rest)).isPrefixOf t <;> simp
  have hpfx := (List.isPrefixOf_iff_prefix).1 hb
  have hle := hpfx.length_le
  simp only [List.length_cons, List.length_append] at hle
  omega

theorem cleanup_preserves_target (target : String) (fs : Fs) :
    assocLookup (cleanup_temp_files target fs) target = assocLookup fs target := by
  simp only [cleanup_temp_files]
  exact assocLookup_filter_key
    (fun s => !((("." ++ target ++ ".tmp.").data).isPrefixOf s.data)) fs target
    (by simp [cons_append_not_initial_seg])

/-- C3 (counterexample): the claim demands an `IoError` whenever all
configured attempts fail, for every configuration; with `retry_count = 0`
every configured attempt has failed vacuously, yet the write panics on
`last_error.unwrap()` instead of returning an `IoError` (the temp file is
left behind and the target keeps its old content, but no error is
returned). -/
theorem atomic_write_zero_retry_panics :
    atomic_write ⟨0, true⟩ (fun _ => true) 1 "t.json" "c" [("t.json", "old")]
      = .panicked unwrapNoneMsg [("t.json", "old"), (".t.json.tmp.1", "c")]
    ∧ FsResult.isErrB
        (atomic_write ⟨0, true⟩ (fun _ => true) 1 "t.json" "c" [("t.json", "old")])
      = false :=
  ⟨rfl, rfl⟩

/-- C3 (amended): through the shared atomic-write path of `FileStorage::save`
and `DirStorage::save`, provided the configured retry count is at least one:
if the rename fails on the first `N` attempts with `N` strictly below the
retry count and succeeds on attempt `N`, the write succeeds and the target
path holds the complete new content; if all configured attempts fail, the
write returns an `IoError` whose message carries the attempt count and the
target path keeps its prior content (only the temp file was written). -/
theorem atomic_write_retry_behavior (cfg : AtomicWriteConfig) (fails : Nat → Bool)
    (pid : Nat) (target content : String) (fs : Fs) :
    (∀ N, N < cfg.retry_count → (∀ j, j < N → fails j = true) → fails N = false →
      ∃ fs2, atomic_write cfg fails pid target content fs = .ok fs2
        ∧ assocLookup fs2 target = some content)
    ∧ (1 ≤ cfg.retry_count → (∀ j, j < cfg.retry_count → fails j = true) →
        atomic_write cfg fails pid target content fs
          = .err (.ioError target
              ("Failed to rename after " ++ toString cfg.retry_count ++ " attempts: "
                ++ renameFailureMsg))
            (fsSet fs (get_temp_path target pid) content)
        ∧ assocLookup (fsSet fs (get_temp_path target pid) content) target
            = assocLookup fs target) := by
  constructor
  · intro N hN hfail hsucc
    have hren : fsRename (fsSet fs (get_temp_path target pid) content)
        (get_temp_path target pid) target
        = some (fsSet (fsRemove (fsSet fs (get_temp_path target pid) content)
            (get_temp_path target pid)) target content) := by
      rw [fsRename, fsSet, assocLookup_insert]
      simp
    have hgo := atomicRenameGo_success fails (get_temp_path target pid) target
      cfg.retry_count N hN hfail hsucc _ _ hren 0 (Nat.zero_le N) none
    rw [Nat.sub_zero] at hgo
    have hrn : atomic_rename cfg.retry_count fails (get_temp_path target pid) target
        (fsSet fs (get_temp_path target pid) content)
        = .ok (fsSet (fsRemove (fsSet fs (get_temp_path target pid) content)
            (get_temp_path target pid)) target content) := hgo
    have hw : atomic_write cfg fails pid target content fs
        = .ok (if cfg.cleanup_tmp_files then
            cleanup_temp_files target
              (fsSet (fsRemove (fsSet fs (get_temp_path target pid) content)
                (get_temp_path target pid)) target content)
          else
            fsSet (fsRemove (fsSet fs (get_temp_path target pid) content)
              (get_temp_path target pid)) target content) := by
      rw [atomic_write, hrn]
    refine ⟨_, hw, ?_⟩
    cases hcl : cfg.cleanup_tmp_files
    · simp only [hcl, Bool.false_eq_true, if_false]
      rw [fsSet, assocLookup_insert]
      simp
    · simp only [hcl, if_true]
      rw [cleanup_preserves_target]
      rw [fsSet, assocLookup_insert]
      simp
  · intro h1 hall
    have hrn : atomic_rename cfg.retry_count fails (get_temp_path target pid) target
        (fsSet fs (get_temp_path target pid) content)
        = .err (.ioError target
            ("Failed to rename after " ++ toString cfg.retry_count ++ " attempts: "
              ++ renameFailureMsg))
          (fsSet fs (get_temp_path target pid) content) :=
      atomicRenameGo_all_fail fails _ target cfg.retry_count hall cfg.retry_count
        h1 le_rfl _ none
    constructor
    · rw [atomic_write]
      rw [hrn]
    · rw [fsSet, assocLookup_insert,
        if_neg (get_temp_path_ne target pid)]

/-- C3 (witness): with three configured attempts, injected failures on the
first two attempts still produce the new content at the target; with two
configured attempts both failing, the write reports the `IoError` naming two
attempts and the target keeps its old content. -/
theorem atomic_write_retry_behavior_witness :
    (∃ fs2, atomic_write ⟨3, true⟩ (fun n => decide (n < 2)) 1 "t.json" "new"
        [("t.json", "old")] = .ok fs2 ∧ assocLookup fs2 "t.json" = some "new")
    ∧ (atomic_write ⟨2, true⟩ (fun _ => true) 1 "t.json" "new" [("t.json", "old")]
        = .err (.ioError "t.json" "Failed to rename after 2 attempts: injected rename failure")
            [("t.json", "old"), (".t.json.tmp.1", "new")]
      ∧ assocLookup [("t.json", "old"), (".t.json.tmp.1", "new")] "t.json"
          = assocLookup [("t.json", "old")] "t.json") := by
  constructor
  · exact (atomic_write_retry_behavior ⟨3, true⟩ (fun n => decide (n < 2)) 1
      "t.json" "new" [("t.json", "old")]).1 2 (by decide)
      (fun j hj => by simpa using hj) (by decide)
  · have h := (atomic_write_retry_behavior ⟨2, true⟩ (fun _ => true) 1
      "t.json" "new" [("t.json", "old")]).2 (by decide) (fun j _ => rfl)
    exact ⟨by rw [h.1]; rfl, by rw [← h.2]; rfl⟩

/-! ### Migrator.load on unregistered entities -/

/-- C4 (counterexample): the claim says `load` on an unregistered entity fails
with `EntityNotFound` for every input byte sequence; but `load` parses the
bytes before looking up the entity, so bytes that are not valid JSON (the
codec's parse outcome is `none`) fail with `DeserializationError` instead. -/
theorem load_unparsable_bytes_counterexample :
    Migrator.load (α := Json) some Migrator.new "unregistered" none
      = .error (.deserializationError "Failed to parse JSON")
    ∧ MigrationError.deserializationError "Failed to parse JSON"
        ≠ MigrationError.entityNotFound "unregistered" :=
  ⟨rfl, by decide⟩

/-- C4 (amended): for every input that the JSON codec parses successfully,
`load` with an unregistered entity name fails with `EntityNotFound` carrying
that entity name; input that fails to parse yields `DeserializationError`
before the entity is consulted.  Either way `Migrator::load` is a pure
function of the registry and its arguments and touches no filesystem. -/
theorem load_unregistered_entity_not_found {α : Type} (dec : Json → Option α)
    (m : Migrator) (entity : String) (parsed : Option Json)
    (hm : assocLookup m.paths entity = none) :
    (∀ v, parsed = some v →
      m.load dec entity parsed = .error (.entityNotFound entity))
    ∧ (parsed = none →
      m.load dec entity parsed
        = .error (.deserializationError "Failed to parse JSON")) := by
  constructor
  · rintro v rfl
    simp [Migrator.load, Migrator.load_from, hm]
  · rintro rfl
    rfl

/-- C4 (witness): an empty registry rejects `"unregistered"` with
`EntityNotFound` on a well-formed tagged value. -/
theorem load_unregistered_entity_not_found_witness :
    Migrator.load (α := Json) some Migrator.new "unregistered"
        (some (.obj [("version", .str "1.0.0"), ("data", .num 1)]))
      = .error (.entityNotFound "unregistered") :=
  (load_unregistered_entity_not_found some Migrator.new "unregistered"
    (some (.obj [("version", .str "1.0.0"), ("data", .num 1)])) rfl).1 _ rfl

/-! ### ConfigMigrator.update -/

/-- C5: the partial-document update writes back each object element stamped
with the literal field name `"version"` (regardless of the registered path's
resolved version key, which the statement never consults) while leaving every
other top-level field of the document untouched. -/
theorem config_update_stamps_literal_version
    (cm : ConfigMigrator) (entity_name key latest : String)
    (fields : List (String × Json)) (data : List Json)
    (hroot : cm.root = .obj fields)
    (hlatest : cm.migrator.get_latest_version entity_name = some latest) :
    ∃ cm2, cm.update entity_name key data = .ok cm2
      ∧ cm2.root
          = .obj (assocInsert fields key (.arr (data.map (stampLiteralVersion latest))))
      ∧ cm2.migrator = cm.migrator
      ∧ (∀ k2, k2 ≠ key →
          assocLookup
              (assocInsert fields key (.arr (data.map (stampLiteralVersion latest)))) k2
            = assocLookup fields k2)
      ∧ (∀ item_fields,
          stampLiteralVersion latest (.obj item_fields)
            = .obj (assocInsert item_fields "version" (.str latest))) := by
  have hupd : cm.update entity_name key data
      = .ok ⟨.obj (assocInsert fields key (.arr (data.map (stampLiteralVersion latest)))),
          cm.migrator⟩ := by
    simp only [ConfigMigrator.update, hlatest, hroot]
  refine ⟨_, hupd, rfl, rfl, fun k2 hk2 => ?_, fun _ => rfl⟩
  rw [assocLookup_insert, if_neg (fun h => hk2 h.symm)]

/-- C5 (witness): with a path whose resolved version key is
`"schema_version"`, `update` still stamps `"version"` and preserves the
unrelated `"app_name"` field. -/
theorem config_update_stamps_literal_version_witness :
    ∃ cm2, ConfigMigrator.update
        ⟨.obj [("app_name", .str "MyApp")],
         { Migrator.new with paths := [("task",
            ⟨[], fun j => .ok j, ["1.0.0", "2.0.0"], "schema_version", "payload"⟩)] }⟩
        "task" "tasks" [.obj [("id", .str "1")]]
      = .ok cm2
      ∧ cm2.root = .obj [("app_name", .str "MyApp"),
          ("tasks", .arr [.obj [("id", .str "1"), ("version", .str "2.0.0")]])] := by
  obtain ⟨cm2, h1, h2, -⟩ := config_update_stamps_literal_version
    ⟨.obj [("app_name", .str "MyApp")],
     { Migrator.new with paths := [("task",
        ⟨[], fun j => .ok j, ["1.0.0", "2.0.0"], "schema_version", "payload"⟩)] }⟩
    "task" "tasks" "2.0.0" [("app_name", .str "MyApp")] [.obj [("id", .str "1")]]
    rfl rfl
  exact ⟨cm2, h1, by rw [h2]; rfl⟩

/-! ### Round-trip for single-version paths -/

/-- C6: for a single-version migration path (`from(V).into(Domain)`: one
version, no steps, the builder's finalize closure) registered under matching
keys, saving the terminal-version value corresponding to a domain value and
loading the result through the Migrator returns the original domain value.
The hypotheses are the serde round-trip laws of the two types (`decV`/`encV`,
`decD`/`encD`) and that `from_domain` inverts `into_domain`
(`toD (fromD b) = b`), which the property test presumes. -/
theorem save_load_roundtrip {α β : Type} (encV : α → Json) (decV : Json → Option α)
    (toD : α → β) (encD : β → Json) (decD : Json → Option β) (fromD : β → α)
    (m : Migrator) (e v vk dk : String)
    (steps : List (String × (Json → Except MigrationError Json))) (b : β)
    (hp : assocLookup m.paths e
      = some ⟨steps, finalizeOf decV toD encD, [v], vk, dk⟩)
    (hkeys : vk ≠ dk)
    (hstep : assocLookup steps v = none)
    (hdecV : decV (encV (fromD b)) = some (fromD b))
    (hdecD : decD (encD b) = some b)
    (hrt : toD (fromD b) = b) :
    m.load_from decD e (Migrator.save m vk dk v (encV (fromD b))) = .ok b := by
  have hne : dk ≠ vk := fun h => hkeys h.symm
  simp [Migrator.save, Migrator.load_from, hp, assocLookup_insert, hne,
    migrateLoop, hstep, finalizeOf, hdecV, hrt, hdecD]

/-- C6 (witness): a concrete single-version path over `Json` payloads
round-trips the domain value `42`. -/
theorem save_load_roundtrip_witness :
    Migrator.load_from (α := Json) some
        ⟨[("task", ⟨[], finalizeOf (α := Json) (β := Json) some id id,
            ["1.0.0"], "version", "data"⟩)], none, none, []⟩
        "task"
        (Migrator.save Migrator.new "version" "data" "1.0.0" (Json.num 42))
      = .ok (Json.num 42) :=
  save_load_roundtrip id some id id some id
    ⟨[("task", ⟨[], finalizeOf (α := Json) (β := Json) some id id,
        ["1.0.0"], "version", "data"⟩)], none, none, []⟩
    "task" "1.0.0" "version" "data" [] (Json.num 42)
    rfl (by decide) rfl rfl rfl rfl

/-! ### Batch loads -/

theorem load_vec_from_ok {α : Type} (dec : Json → Option α) (m : Migrator)
    (e : String) :
    ∀ {data : List Json} {ys : List α},
      List.Forall₂ (fun d y => m.load_from dec e d = .ok y) data ys →
      m.load_vec_from dec e data = .ok ys
  | _, _, .nil => rfl
  | _, _, .cons hd htl => by
    simp only [Migrator.load_vec_from, hd, load_vec_from_ok dec m e htl]

theorem load_vec_from_err {α : Type} (dec : Json → Option α) (m : Migrator)
    (e : String) (bad : Json) (err : MigrationError)
    (hbad : m.load_from dec e bad = .error err) :
    ∀ (pre rest : List Json),
      (∀ d ∈ pre, ∃ y, m.load_from dec e d = .ok y) →
      m.load_vec_from dec e (pre ++ bad :: rest) = .error err
  | [], rest, _ => by simp only [List.nil_append, Migrator.load_vec_from, hbad]
  | d :: pre, rest, hpre => by
    obtain ⟨y, hy⟩ := hpre d (by simp)
    have hrec : m.load_vec_from dec e (pre ++ bad :: rest) = .error err :=
      load_vec_from_err dec m e bad err hbad pre rest
        (fun x hx => hpre x (by simp [hx]))
    show m.load_vec_from dec e (d :: (pre ++ bad :: rest)) = .error err
    rw [Migrator.load_vec_from, hy, hrec]

theorem loadAllGo_ok {α : Type} (dec : Json → Option α) (parse : String → Option Json)
    (st : DirStorage) (dir : Fs) (e : String) {ids : List String} {ys : List α}
    (h : List.Forall₂ (fun id y => DirStorage.load dec parse st dir e id = .ok y) ids ys) :
    ∀ acc, loadAllGo dec parse st dir e acc ids = .ok (acc ++ ids.zip ys) := by
  induction h with
  | nil => intro acc; simp [loadAllGo]
  | @cons id y tl ys2 hd htl ih =>
    intro acc
    simp only [loadAllGo, hd, List.zip_cons_cons]
    rw [ih (acc ++ [(id, y)])]
    simp

theorem loadAllGo_err {α : Type} (dec : Json → Option α) (parse : String → Option Json)
    (st : DirStorage) (dir : Fs) (e : String) (bad : String) (err : MigrationError)
    (hbad : DirStorage.load (α := α) dec parse st dir e bad = .err err) :
    ∀ (pre rest : List String),
      (∀ id ∈ pre, ∃ y, DirStorage.load dec parse st dir e id = .ok y) →
      ∀ acc, loadAllGo (α := α) dec parse st dir e acc (pre ++ bad :: rest) = .err err
  | [], rest, _, acc => by simp only [List.nil_append, loadAllGo, hbad]
  | id :: pre, rest, hpre, acc => by
    obtain ⟨y, hy⟩ := hpre id (by simp)
    show loadAllGo dec parse st dir e acc (id :: (pre ++ bad :: rest)) = .err err
    rw [loadAllGo, hy]
    exact loadAllGo_err dec parse st dir e bad err hbad pre rest
      (fun x hx => hpre x (by simp [hx])) _

/-- C7: the batch loads are all-or-nothing.  `Migrator::load_vec_from`
returns the list of all element-wise results, in order, when every element
loads, and returns the first failing element's error with no partial results
otherwise; `DirStorage::load_all` aggregates `load` over `list_ids` the same
way: all `(id, entity)` pairs in id order on success, and the first failing
id's error otherwise. -/
theorem batch_loads_all_or_nothing :
    (∀ {α : Type} (dec : Json → Option α) (m : Migrator) (e : String)
        (data : List Json) (ys : List α),
      List.Forall₂ (fun d y => m.load_from dec e d = .ok y) data ys →
      m.load_vec_from dec e data = .ok ys)
    ∧ (∀ {α : Type} (dec : Json → Option α) (m : Migrator) (e : String)
        (pre : List Json) (bad : Json) (rest : List Json) (err : MigrationError),
      (∀ d ∈ pre, ∃ y, m.load_from dec e d = .ok y) →
      m.load_from dec e bad = .error err →
      m.load_vec_from dec e (pre ++ bad :: rest) = .error err)
    ∧ (∀ {α : Type} (dec : Json → Option α) (parse : String → Option Json)
        (st : DirStorage) (dir : Fs) (e : String) (ids : List String) (ys : List α),
      st.list_ids dir = .ok ids →
      List.Forall₂ (fun id y => DirStorage.load dec parse st dir e id = .ok y) ids ys →
      st.load_all dec parse dir e = .ok (ids.zip ys))
    ∧ (∀ {α : Type} (dec : Json → Option α) (parse : String → Option Json)
        (st : DirStorage) (dir : Fs) (e : String) (pre : List String) (bad : String)
        (rest : List String) (err : MigrationError),
      st.list_ids dir = .ok (pre ++ bad :: rest) →
      (∀ id ∈ pre, ∃ y, DirStorage.load (α := α) dec parse st dir e id = .ok y) →
      DirStorage.load (α := α) dec parse st dir e bad = .err err →
      st.load_all (α := α) dec parse dir e = .err err) := by
  refine ⟨?_, ?_, ?_, ?_⟩
  · intro α dec m e data ys h
    exact load_vec_from_ok dec m e h
  · intro α dec m e pre bad rest err hpre hbad
    exact load_vec_from_err dec m e bad err hbad pre rest hpre
  · intro α dec parse st dir e ids ys hids h
    simp only [DirStorage.load_all, hids]
    simpa using loadAllGo_ok dec parse st dir e h []
  · intro α dec parse st dir e pre bad rest err hids hpre hbad
    simp only [DirStorage.load_all, hids]
    exact loadAllGo_err dec parse st dir e bad err hbad pre rest hpre []

/-- C7 (witness): a one-element batch loads through `load_vec_from`, and a
one-file directory loads through `load_all`, with the claimed results. -/
theorem batch_loads_all_or_nothing_witness :
    Migrator.load_vec_from (α := Json) some
        ⟨[("t", ⟨[], fun j => .ok j, ["1.0.0"], "version", "data"⟩)], none, none, []⟩
        "t" [.obj [("version", .str "1.0.0"), ("data", .num 7)]]
      = .ok [Json.num 7]
    ∧ DirStorage.load_all (α := Json) some
        (fun _ => some (.obj [("version", .str "1.0.0")]))
        ⟨"b", ⟨[("t", ⟨[], fun j => .ok j, ["1.0.0"], "version", "data"⟩)], none, none, []⟩,
          ⟨.json, ⟨3, true⟩, none, .direct⟩⟩
        [("a.json", "x")] "t"
      = .ok [("a", Json.obj [])] :=
  ⟨batch_loads_all_or_nothing.1 some
      ⟨[("t", ⟨[], fun j => .ok j, ["1.0.0"], "version", "data"⟩)], none, none, []⟩
      "t" [.obj [("version", .str "1.0.0"), ("data", .num 7)]] [Json.num 7]
      (.cons rfl .nil),
   batch_loads_all_or_nothing.2.2.1 some
      (fun _ => some (.obj [("version", .str "1.0.0")]))
      ⟨"b", ⟨[("t", ⟨[], fun j => .ok j, ["1.0.0"], "version", "data"⟩)], none, none, []⟩,
        ⟨.json, ⟨3, true⟩, none, .direct⟩⟩
      [("a.json", "x")] "t" ["a"] [Json.obj []] rfl (.cons rfl .nil)⟩

/-! ### Filename encodings -/

theorem listIdsGo_panics (st : DirStorage)
    (hdecode : ∀ stem, ∃ msg, st.decode_id stem = .panicked msg) :
    ∀ (names : List String), (∃ name ∈ names, extMatchesB st name = true) →
      ∀ acc, ∃ msg, listIdsGo st acc names = .panicked msg
  | [], hmem, _ => by simp at hmem
  | name :: rest, hmem, acc => by
    match hse : splitStemExt name with
    | some (stem, ext) =>
      by_cases hext : ext = st.strategy.get_extension
      · obtain ⟨msg, hmsg⟩ := hdecode stem
        exact ⟨msg, by simp only [listIdsGo, hse, hext, if_true, hmsg]⟩
      · have hrest : ∃ n ∈ rest, extMatchesB st n = true := by
          rcases hmem with ⟨n, hn, hmatch⟩
          rcases List.mem_cons.1 hn with rfl | hn2
          · rw [extMatchesB, hse] at hmatch
            simp [hext] at hmatch
          · exact ⟨n, hn2, hmatch⟩
        obtain ⟨msg, hmsg⟩ := listIdsGo_panics st hdecode rest hrest acc
        exact ⟨msg, by simp only [listIdsGo, hse, hext, if_false, hmsg]⟩
    | none =>
      have hrest : ∃ n ∈ rest, extMatchesB st n = true := by
        rcases hmem with ⟨n, hn, hmatch⟩
        rcases List.mem_cons.1 hn with rfl | hn2
        · rw [extMatchesB, hse] at hmatch
          simp at hmatch
        · exact ⟨n, hn2, hmatch⟩
      obtain ⟨msg, hmsg⟩ := listIdsGo_panics st hdecode rest hrest acc
      exact ⟨msg, by simp only [listIdsGo, hse, hmsg]⟩

theorem listIdsGo_skips_all (st : DirStorage) :
    ∀ (names : List String), (∀ name ∈ names, extMatchesB st name = false) →
      ∀ acc, listIdsGo st acc names = .ok (sortStrings acc)
  | [], _, acc => rfl
  | name :: rest, hall, acc => by
    have hrest := fun n hn => hall n (List.mem_cons_of_mem name hn)
    have hname := hall name (by simp)
    match hse : splitStemExt name with
    | some (stem, ext) =>
      have hext : ¬ ext = st.strategy.get_extension := by
        rw [extMatchesB, hse] at hname
        simpa using hname
      simp only [listIdsGo, hse, hext, if_false]
      exact listIdsGo_skips_all st rest hrest acc
    | none =>
      simp only [listIdsGo, hse]
      exact listIdsGo_skips_all st rest hrest acc

/-- C10 (counterexample): the claim says `list_ids` over any non-empty
directory panics under the `UrlEncode`/`Base64` strategies; but entries whose
extension does not match the configured one are skipped before any decoding,
so a non-empty directory holding only `a.txt` under a `json`-extension
strategy returns `Ok([])` without panicking. -/
theorem list_ids_nonmatching_extension_no_panic :
    DirStorage.list_ids
        ⟨"b", Migrator.new, ⟨.json, ⟨3, true⟩, none, .urlEncode⟩⟩ [("a.txt", "x")]
      = .ok []
    ∧ Outcome.isPanicB (DirStorage.list_ids
        ⟨"b", Migrator.new, ⟨.json, ⟨3, true⟩, none, .urlEncode⟩⟩ [("a.txt", "x")])
      = false :=
  ⟨rfl, rfl⟩

/-- C10 (amended): under the `UrlEncode` and `Base64` strategies every id
encoding or decoding panics in a `todo!` branch, and so do the operations
that reach one: `save` (once the entity's flat save succeeds), `load`,
`exists`, `delete`, and `list_ids`/`load_all` whenever at least one directory
entry carries the configured extension — `list_ids` over a directory with no
matching-extension entry returns `Ok([])` without decoding.  The
`FilenameEncoding` error is returned only by the `Direct` strategy, exactly
on ids containing a character outside alphanumerics, `-`, `_`. -/
theorem unimplemented_encodings_panic :
    (∀ (st : DirStorage),
      (st.strategy.filename_encoding = .urlEncode
        ∨ st.strategy.filename_encoding = .base64) →
      (∀ id, ∃ msg, st.encode_id id = .panicked msg)
      ∧ (∀ stem, ∃ msg, st.decode_id stem = .panicked msg)
      ∧ (∀ {α : Type} (dec : Json → Option α) (parse : String → Option Json)
          (dir : Fs) (e id : String), ∃ msg,
          DirStorage.load dec parse st dir e id = .panicked msg)
      ∧ (∀ (dir : Fs) (id : String), ∃ msg, st.existsFile dir id = .panicked msg)
      ∧ (∀ (dir : Fs) (id : String), ∃ msg, st.delete dir id = .panicked msg)
      ∧ (∀ (fails : Nat → Bool) (pid : Nat) (ser : Json → String) (dir : Fs)
          (e id : String) (x j : Json),
          st.migrator.save_domain_flat e x = .ok j →
          ∃ msg, DirStorage.save fails pid ser st dir e id x = .panicked msg dir)
      ∧ (∀ (dir : Fs), (∃ entry ∈ dir, extMatchesB st entry.1 = true) →
          ∃ msg, st.list_ids dir = .panicked msg)
      ∧ (∀ (dir : Fs), (∀ entry ∈ dir, extMatchesB st entry.1 = false) →
          st.list_ids dir = .ok []))
    ∧ (∀ (st : DirStorage) (id : String), st.strategy.filename_encoding = .direct →
        (id.data.all isSafeChar = true → st.encode_id id = .ok id)
        ∧ (id.data.all isSafeChar = false →
            st.encode_id id = .err (.filenameEncoding id directEncodingReason))) := by
  constructor
  · intro st henc
    have hencp : ∀ id, ∃ msg, st.encode_id id = .panicked msg := by
      intro id
      rcases henc with h | h
      · exact ⟨"not yet implemented: UrlEncode is not yet implemented",
          by simp [DirStorage.encode_id, h]⟩
      · exact ⟨"not yet implemented: Base64 encoding is not yet implemented",
          by simp [DirStorage.encode_id, h]⟩
    have hdecp : ∀ stem, ∃ msg, st.decode_id stem = .panicked msg := by
      intro stem
      rcases henc with h | h
      · exact ⟨"not yet implemented: UrlEncode decoding is not yet implemented",
          by simp [DirStorage.decode_id, h]⟩
      · exact ⟨"not yet implemented: Base64 decoding is not yet implemented",
          by simp [DirStorage.decode_id, h]⟩
    refine ⟨hencp, hdecp, ?_, ?_, ?_, ?_, ?_, ?_⟩
    · intro α dec parse dir e id
      obtain ⟨msg, hmsg⟩ := hencp id
      exact ⟨msg, by simp [DirStorage.load, DirStorage.id_to_path, hmsg]⟩
    · intro dir id
      obtain ⟨msg, hmsg⟩ := hencp id
      exact ⟨msg, by simp [DirStorage.existsFile, DirStorage.id_to_path, hmsg]⟩
    · intro dir id
      obtain ⟨msg, hmsg⟩ := hencp id
      exact ⟨msg, by simp [DirStorage.delete, DirStorage.id_to_path, hmsg]⟩
    · intro fails pid ser dir e id x j hsave
      obtain ⟨msg, hmsg⟩ := hencp id
      exact ⟨msg, by simp [DirStorage.save, hsave, DirStorage.id_to_path, hmsg]⟩
    · intro dir hmem
      have hnames : ∃ name ∈ dir.map (·.1), extMatchesB st name = true := by
        rcases hmem with ⟨entry, hentry, hmatch⟩
        exact ⟨entry.1, List.mem_map_of_mem _ hentry, hmatch⟩
      obtain ⟨msg, hmsg⟩ := listIdsGo_panics st hdecp (dir.map (·.1)) hnames []
      exact ⟨msg, by rw [DirStorage.list_ids, hmsg]⟩
    · intro dir hall
      have hnames : ∀ name ∈ dir.map (·.1), extMatchesB st name = false := by
        intro name hname
        rcases List.mem_map.1 hname with ⟨entry, hentry, rfl⟩
        exact hall entry hentry
      rw [DirStorage.list_ids, listIdsGo_skips_all st (dir.map (·.1)) hnames []]
      rfl
  · intro st id henc
    constructor
    · intro hsafe
      simp [DirStorage.encode_id, henc, hsafe]
    · intro hsafe
      simp [DirStorage.encode_id, henc, hsafe]

/-- C10 (witness): `encode_id` panics under `UrlEncode` on a safe id,
`list_ids` panics under `Base64` on a directory with one matching entry, and
the `Direct` strategy returns the `FilenameEncoding` error on `"abc/1"`. -/
theorem unimplemented_encodings_panic_witness :
    (∃ msg, DirStorage.encode_id
        ⟨"b", Migrator.new, ⟨.json, ⟨3, true⟩, none, .urlEncode⟩⟩ "abc-1"
      = .panicked msg)
    ∧ (∃ msg, DirStorage.list_ids
        ⟨"b", Migrator.new, ⟨.json, ⟨3, true⟩, none, .base64⟩⟩ [("a.json", "x")]
      = .panicked msg)
    ∧ DirStorage.encode_id
        ⟨"b", Migrator.new, ⟨.json, ⟨3, true⟩, none, .direct⟩⟩ "abc/1"
      = .err (.filenameEncoding "abc/1" directEncodingReason) :=
  ⟨(unimplemented_encodings_panic.1
      ⟨"b", Migrator.new, ⟨.json, ⟨3, true⟩, none, .urlEncode⟩⟩ (Or.inl rfl)).1 "abc-1",
   (unimplemented_encodings_panic.1
      ⟨"b", Migrator.new, ⟨.json, ⟨3, true⟩, none, .base64⟩⟩
      (Or.inr rfl)).2.2.2.2.2.2.1 [("a.json", "x")] ⟨("a.json", "x"), by simp, rfl⟩,
   (unimplemented_encodings_panic.2
      ⟨"b", Migrator.new, ⟨.json, ⟨3, true⟩, none, .direct⟩⟩ "abc/1" rfl).2 rfl⟩

/-! ### The chain walk -/

theorem listPosition_get_of_nodup :
    ∀ (l : List String), l.Nodup → ∀ (j : Nat) (hj : j < l.length),
      listPosition l (l.get ⟨j, hj⟩) = some j
  | [], _, j, hj => absurd hj (by simp)
  | x :: xs, _, 0, _ => by simp [listPosition]
  | x :: xs, hnd, j + 1, hj => by
    have hx : x ∉ xs := (List.nodup_cons.1 hnd).1
    have hjx : j < xs.length := by simpa using hj
    have hne : x ≠ xs.get ⟨j, hjx⟩ := by
      intro h
      exact hx (h ▸ List.get_mem xs j hjx)
    show listPosition (x :: xs) (xs.get ⟨j, hjx⟩) = some (j + 1)
    rw [listPosition, if_neg hne,
      listPosition_get_of_nodup xs (List.nodup_cons.1 hnd).2 j hjx]
    rfl

theorem migrateLoop_fuel_invariant (p : EntityMigrationPath)
    (F : Nat → Json → Except MigrationError Json)
    (hnd : p.versions.Nodup)
    (hstep₁ : ∀ (j : Nat) (h : j + 1 < p.versions.length),
      assocLookup p.steps (p.versions.get ⟨j, Nat.lt_of_succ_lt h⟩) = some (F j))
    (hstep₂ : ∀ (j : Nat) (hj : j < p.versions.length),
      ¬ (j + 1 < p.versions.length) →
      assocLookup p.steps (p.versions.get ⟨j, hj⟩) = none) :
    ∀ (n j : Nat) (hj : j < p.versions.length), p.versions.length - j ≤ n →
      ∀ (f1 f2 : Nat), p.versions.length - j ≤ f1 → p.versions.length - j ≤ f2 →
      ∀ d, migrateLoop p f1 (p.versions.get ⟨j, hj⟩) d
          = migrateLoop p f2 (p.versions.get ⟨j, hj⟩) d
  | 0, j, hj, hn, _, _, _, _, _ => absurd hn (by omega)
  | n + 1, j, hj, _, f1, f2, hf1, hf2, d => by
    obtain ⟨g1, rfl⟩ : ∃ g1, f1 = g1 + 1 := ⟨f1 - 1, by omega⟩
    obtain ⟨g2, rfl⟩ : ∃ g2, f2 = g2 + 1 := ⟨f2 - 1, by omega⟩
    by_cases hterm : j + 1 < p.versions.length
    · have hs := hstep₁ j hterm
      simp only [migrateLoop, hs,
        listPosition_get_of_nodup p.versions hnd j hj, dif_pos hterm]
      cases hFd : F j d with
      | error e => rfl
      | ok d2 =>
        exact migrateLoop_fuel_invariant p F hnd hstep₁ hstep₂ n (j + 1) hterm
          (by omega) g1 g2 (by omega) (by omega) d2
    · have hs := hstep₂ j hj hterm
      simp only [migrateLoop, hs]

theorem migrateLoop_step (p : EntityMigrationPath)
    (F : Nat → Json → Except MigrationError Json)
    (hnd : p.versions.Nodup)
    (hstep₁ : ∀ (j : Nat) (h : j + 1 < p.versions.length),
      assocLookup p.steps (p.versions.get ⟨j, Nat.lt_of_succ_lt h⟩) = some (F j))
    (j : Nat) (hj1 : j + 1 < p.versions.length)
    (d d2 : Json) (hF : F j d = .ok d2) (fuel : Nat) :
    migrateLoop p (fuel + 1) (p.versions.get ⟨j, Nat.lt_of_succ_lt hj1⟩) d
      = migrateLoop p fuel (p.versions.get ⟨j + 1, hj1⟩) d2 := by
  simp only [migrateLoop, hstep₁ j hj1, hF,
    listPosition_get_of_nodup p.versions hnd j (Nat.lt_of_succ_lt hj1)]
  rw [dif_pos hj1]

theorem migrateLoop_chain (p : EntityMigrationPath)
    (F : Nat → Json → Except MigrationError Json)
    (hnd : p.versions.Nodup)
    (hstep₁ : ∀ (j : Nat) (h : j + 1 < p.versions.length),
      assocLookup p.steps (p.versions.get ⟨j, Nat.lt_of_succ_lt h⟩) = some (F j))
    (hstep₂ : ∀ (j : Nat) (hj : j < p.versions.length),
      ¬ (j + 1 < p.versions.length) →
      assocLookup p.steps (p.versions.get ⟨j, hj⟩) = none)
    (ds : Nat → Json) :
    ∀ (i : Nat) (hi : i < p.versions.length),
      (∀ k, k < i → F k (ds k) = .ok (ds (k + 1))) →
      migrateLoop p p.versions.length
          (p.versions.get ⟨0, Nat.lt_of_le_of_lt (Nat.zero_le i) hi⟩) (ds 0)
        = migrateLoop p p.versions.length (p.versions.get ⟨i, hi⟩) (ds i)
  | 0, hi, _ => rfl
  | i + 1, hi, happly => by
    have hi0 : i < p.versions.length := Nat.lt_of_succ_lt hi
    have hprev := migrateLoop_chain p F hnd hstep₁ hstep₂ ds i hi0
      (fun k hk => happly k (Nat.lt_succ_of_lt hk))
    rw [show migrateLoop p p.versions.length
          (p.versions.get ⟨0, Nat.lt_of_le_of_lt (Nat.zero_le (i + 1)) hi⟩) (ds 0)
        = migrateLoop p p.versions.length (p.versions.get ⟨i, hi0⟩) (ds i) from hprev]
    obtain ⟨g, hg⟩ : ∃ g, p.versions.length = g + 1 :=
      ⟨p.versions.length - 1, by omega⟩
    calc migrateLoop p p.versions.length (p.versions.get ⟨i, hi0⟩) (ds i)
        = migrateLoop p (g + 1) (p.versions.get ⟨i, hi0⟩) (ds i) := by rw [← hg]
      _ = migrateLoop p g (p.versions.get ⟨i + 1, hi⟩) (ds (i + 1)) :=
          migrateLoop_step p F hnd hstep₁ i hi (ds i) (ds (i + 1))
            (happly i (Nat.lt_succ_self i)) g
      _ = migrateLoop p p.versions.length
            (p.versions.get ⟨i + 1, hi⟩) (ds (i + 1)) :=
          migrateLoop_fuel_invariant p F hnd hstep₁ hstep₂ p.versions.length
            (i + 1) hi (by omega) g p.versions.length (by omega) (by omega)
            (ds (i + 1))

/-- C2: the chain walk applies the step registered for the current version to
the raw payload and advances the current version to the next entry of the
path's version list (it never re-reads a tag from a step's output), until no
step exists, then finalizes.  Consequently, for a registered duplicate-free
path whose steps cover exactly the non-terminal versions, loading a payload
tagged at the earliest version equals loading the same logical data tagged at
any intermediate version `i` after manually applying the intervening
transforms (`ds` with `F k (ds k) = ok (ds (k+1))`). -/
theorem load_chain_equivalence {α : Type} (dec : Json → Option α)
    (m : Migrator) (e : String) (p : EntityMigrationPath)
    (F : Nat → Json → Except MigrationError Json) (ds : Nat → Json)
    (i : Nat) (hi : i < p.versions.length)
    (hp : assocLookup m.paths e = some p)
    (hnd : p.versions.Nodup)
    (hkeys : p.version_key ≠ p.data_key)
    (hstep₁ : ∀ (j : Nat) (h : j + 1 < p.versions.length),
      assocLookup p.steps (p.versions.get ⟨j, Nat.lt_of_succ_lt h⟩) = some (F j))
    (hstep₂ : ∀ (j : Nat) (hj : j < p.versions.length),
      ¬ (j + 1 < p.versions.length) →
      assocLookup p.steps (p.versions.get ⟨j, hj⟩) = none)
    (happly : ∀ k, k < i → F k (ds k) = .ok (ds (k + 1))) :
    m.load_from dec e (taggedJson p.version_key p.data_key
        (p.versions.get ⟨0, Nat.lt_of_le_of_lt (Nat.zero_le i) hi⟩) (ds 0))
      = m.load_from dec e (taggedJson p.version_key p.data_key
        (p.versions.get ⟨i, hi⟩) (ds i)) := by
  have hne : p.data_key ≠ p.version_key := fun h => hkeys h.symm
  have hchain := migrateLoop_chain p F hnd hstep₁ hstep₂ ds i hi happly
  simp only [Migrator.load_from, taggedJson, hp, assocLookup_insert, hne,
    if_false, if_true, eq_self_iff_true]
  rw [hchain]

/-- C2 (witness): for a registered two-version path, loading `{version:
"1.0.0", data: 1}` (which runs the single step producing `2`) equals loading
`{version: "2.0.0", data: 2}` (the manually pre-migrated payload). -/
theorem load_chain_equivalence_witness :
    Migrator.load_from (α := Json) some
        ⟨[("t", ⟨[("1.0.0", fun _ => .ok (Json.num 2))], fun j => .ok j,
            ["1.0.0", "2.0.0"], "version", "data"⟩)], none, none, []⟩ "t"
        (taggedJson "version" "data" "1.0.0" (Json.num 1))
      = Migrator.load_from (α := Json) some
        ⟨[("t", ⟨[("1.0.0", fun _ => .ok (Json.num 2))], fun j => .ok j,
            ["1.0.0", "2.0.0"], "version", "data"⟩)], none, none, []⟩ "t"
        (taggedJson "version" "data" "2.0.0" (Json.num 2)) :=
  load_chain_equivalence some
    ⟨[("t", ⟨[("1.0.0", fun _ => .ok (Json.num 2))], fun j => .ok j,
        ["1.0.0", "2.0.0"], "version", "data"⟩)], none, none, []⟩ "t"
    ⟨[("1.0.0", fun _ => .ok (Json.num 2))], fun j => .ok j,
      ["1.0.0", "2.0.0"], "version", "data"⟩
    (fun _ => fun _ => .ok (Json.num 2))
    (fun k => if k = 0 then Json.num 1 else Json.num 2)
    1 (by decide) rfl (by decide) (by decide)
    (fun j h => by
      have h2 : j + 1 < 2 := h
      have hj : j = 0 := by omega
      subst hj
      rfl)
    (fun j hj hn => by
      have hj2 : j < 2 := hj
      have hn2 : ¬ (j + 1 < 2) := hn
      have hj1 : j = 1 := by omega
      subst hj1
      rfl)
    (fun k hk => by
      have hk0 : k = 0 := by omega
      subst hk0
      rfl)

end VersionMigrate
